import Mathlib

set_option maxHeartbeats 1000000

/-!
Shallow embedding of the read-through refresh pipeline of
`src/app.py` and `src/app_local.py` (leetcode-stats-app).

Time is modelled as a natural number supplied to each operation (the
source calls `time.time()`); the in-memory cache dict `CACHE` is a
total function from keys to optional entries; the SQL table
`leetcode_users` is a list of rows; the network is an oracle giving
the outcome of each attempt of `fetch_leetcode`.
-/

namespace LeetStats

/-- One element of the upstream `submitStats.acSubmissionNum` list.
`difficulty = none` models the "difficulty" key being absent (or null),
`count = none` models the "count" key being absent (the source reads it
with `item.get("count", 0)`). -/
structure AcItem where
  difficulty : Option String
  count : Option Int
deriving DecidableEq

/-- The upstream `matchedUser.profile` object; both fields nullable. -/
structure Profile where
  ranking : Option Int
  reputation : Option Int
deriving DecidableEq

/-- The upstream `matchedUser` object.  `profile = none` models
`matched.get("profile") or {}` receiving a null/absent profile. -/
structure MatchedUser where
  username : String
  profile : Option Profile
  acSubmissionNum : List AcItem
deriving DecidableEq

/-- A parsed upstream GraphQL response body.  `matchedUser = none` models
`(data or {}).get("data", {}).get("matchedUser")` being null or absent;
`errors` models the top-level `errors` list (`[]` when absent, matching
Python truthiness of `data.get("errors")`). -/
structure RawResponse where
  matchedUser : Option MatchedUser
  errors : List String
deriving DecidableEq

/-- The four-tier solved map built by `transform_response`; the structure
has exactly the keys `All`, `Easy`, `Medium`, `Hard`. -/
structure Solved where
  all : Int
  easy : Int
  medium : Int
  hard : Int
deriving DecidableEq

/-- The dict returned by `transform_response` / `fetch_or_update_user`:
either `{"ok": False, "error": ...}` or the full success payload. -/
inductive Payload where
  | failure (error : String)
  | success (username : String) (ranking : Option Int) (reputation : Option Int) (solved : Solved)
deriving DecidableEq

/-- `payload.get("ok")` truthiness. -/
def Payload.isOk : Payload → Bool
  | .failure _ => false
  | .success _ _ _ _ => true

/-- `payload.get("error")` (empty string on a success payload, where the
source would see `None`). -/
def Payload.errorMsg : Payload → String
  | .failure e => e
  | .success _ _ _ _ => ""

/-- `stats.get("ranking")` — `None` on a failure dict. -/
def Payload.rankingOf : Payload → Option Int
  | .failure _ => none
  | .success _ r _ _ => r

/-- `stats.get("reputation")` — `None` on a failure dict. -/
def Payload.reputationOf : Payload → Option Int
  | .failure _ => none
  | .success _ _ r _ => r

/-- `stats.get("solved", {}).get("All", 0)`. -/
def Payload.solvedAll : Payload → Int
  | .failure _ => 0
  | .success _ _ _ s => s.all

/-- `stats.get("solved", {}).get("Easy", 0)`. -/
def Payload.solvedEasy : Payload → Int
  | .failure _ => 0
  | .success _ _ _ s => s.easy

/-- `stats.get("solved", {}).get("Medium", 0)`. -/
def Payload.solvedMedium : Payload → Int
  | .failure _ => 0
  | .success _ _ _ s => s.medium

/-- `stats.get("solved", {}).get("Hard", 0)`. -/
def Payload.solvedHard : Payload → Int
  | .failure _ => 0
  | .success _ _ _ s => s.hard

/-! ## Normalizer: `transform_response` -/

/-- Value of the dict comprehension
`{item.get("difficulty"): item.get("count", 0) for item in ac_list if "difficulty" in item}`
at key `d`, with the `.get(d, 0)` default: the last list element whose
"difficulty" equals `d` wins (later dict entries overwrite earlier ones),
and a missing key yields 0. -/
def lookupCount (items : List AcItem) (d : String) : Int :=
  match (items.filter fun it => it.difficulty == some d).getLast? with
  | some it => it.count.getD 0
  | none => 0

/-- `transform_response(data)` from `src/app.py` lines 80–103 (identical in
`src/app_local.py` lines 77–100).  `data = none` models `data` being `None`.
The Python f-string `f"GraphQL errors: {err_msg}"` is modelled by
interpolating the error list with `", "`. -/
def transform_response (data : Option RawResponse) : Payload :=
  match data with
  | none => Payload.failure "User not found or profile is private."
  | some d =>
    match d.matchedUser with
    | none =>
      if d.errors ≠ [] then
        Payload.failure ("GraphQL errors: " ++ String.intercalate ", " d.errors)
      else
        Payload.failure "User not found or profile is private."
    | some matched =>
      let profile := matched.profile.getD { ranking := none, reputation := none }
      Payload.success matched.username profile.ranking profile.reputation
        { all := lookupCount matched.acSubmissionNum "All"
          easy := lookupCount matched.acSubmissionNum "Easy"
          medium := lookupCount matched.acSubmissionNum "Medium"
          hard := lookupCount matched.acSubmissionNum "Hard" }

/-! ## Fetcher: `fetch_leetcode` -/

/-- Outcome of one HTTP attempt inside `fetch_leetcode`: the upstream
oracle.  `httpError none` models `raise_for_status` raising with a
response object lacking a `status_code`. -/
inductive AttemptOutcome where
  | success (resp : RawResponse)
  | httpError (status : Option Nat)
  | timeout
  | connectionError
deriving DecidableEq

/-- How a call of `fetch_leetcode` ends: a returned JSON body, one of the
re-raised exceptions, or the (unreachable for `retries ≥ 0`) trailing
`raise RuntimeError`. -/
inductive FetchResult where
  | ok (resp : RawResponse)
  | raisedHTTP (status : Option Nat)
  | raisedTimeout
  | raisedConnection
  | runtimeError
deriving DecidableEq

/-- Observable run of `fetch_leetcode`: its result, the number of HTTP
attempts made, and the number of `time.sleep` calls performed. -/
structure FetchRun where
  result : FetchResult
  attempts : Nat
  sleeps : Nat
deriving DecidableEq

/-- The retry guard `status in (429, 499) or (status and 500 <= status < 600)`;
`none` models a missing (falsy) `status_code`. -/
def retryableStatus : Option Nat → Bool
  | some s => decide (s = 429 ∨ s = 499 ∨ (500 ≤ s ∧ s < 600))
  | none => false

/-- The `for attempt in range(retries + 1)` loop of `fetch_leetcode`,
`src/app.py` lines 61–77.  `fuel` counts the remaining loop iterations;
running out of fuel is the trailing `raise RuntimeError`. -/
def fetch_loop (outcomes : Nat → AttemptOutcome) (retries : Nat) :
    Nat → Nat → Nat → FetchRun
  | attempt, sleeps, 0 => { result := .runtimeError, attempts := attempt, sleeps := sleeps }
  | attempt, sleeps, fuel + 1 =>
    match outcomes attempt with
    | .success r => { result := .ok r, attempts := attempt + 1, sleeps := sleeps }
    | .httpError status =>
      if retryableStatus status = true ∧ attempt < retries then
        fetch_loop outcomes retries (attempt + 1) (sleeps + 1) fuel
      else
        { result := .raisedHTTP status, attempts := attempt + 1, sleeps := sleeps }
    | .timeout =>
      if attempt < retries then
        fetch_loop outcomes retries (attempt + 1) (sleeps + 1) fuel
      else
        { result := .raisedTimeout, attempts := attempt + 1, sleeps := sleeps }
    | .connectionError =>
      if attempt < retries then
        fetch_loop outcomes retries (attempt + 1) (sleeps + 1) fuel
      else
        { result := .raisedConnection, attempts := attempt + 1, sleeps := sleeps }

/-- `fetch_leetcode(username, retries, timeout)` from `src/app.py`
lines 51–78 (identical in `src/app_local.py` lines 49–75), abstracting the
network as the `outcomes` oracle.  The username, headers and request
timeout do not affect the control flow being verified. -/
def fetch_leetcode (outcomes : Nat → AttemptOutcome) (retries : Nat) : FetchRun :=
  fetch_loop outcomes retries 0 0 (retries + 1)

/-! ## Cache -/

/-- One value of the `CACHE` dict: the `(expiry, data)` pair stored by
`cache_set`. -/
structure CacheEntry where
  expiresAt : Nat
  data : Payload
deriving DecidableEq

/-- The in-memory `CACHE` dict. -/
def CacheMap : Type := String → Option CacheEntry

/-- `TTL_SECONDS = 600`. -/
def TTL_SECONDS : Nat := 600

/-- `cache_get(key)` from `src/app.py` lines 18–26 at current time `now`:
returns the hit (if any) together with the cache state after the call
(the expired branch performs `CACHE.pop(key, None)`). -/
def cache_get (cache : CacheMap) (now : Nat) (key : String) :
    Option Payload × CacheMap :=
  match cache key with
  | none => (none, cache)
  | some item =>
    if now > item.expiresAt then
      (none, fun k => if k = key then none else cache k)
    else
      (some item.data, cache)

/-- `cache_set(key, data, ttl)` from `src/app.py` lines 28–29:
`CACHE[key] = (time.time() + ttl, data)`. -/
def cache_set (cache : CacheMap) (now : Nat) (key : String) (data : Payload)
    (ttl : Nat) : CacheMap :=
  fun k => if k = key then some { expiresAt := now + ttl, data := data } else cache k

/-! ## Store: `store_user_stats` -/

/-- One row of the `leetcode_users` table (the SERIAL/AUTOINCREMENT `id`
column is not modelled; rows are compared by content). -/
structure PersistedRow where
  username : String
  ranking : Option Int
  reputation : Option Int
  easy : Int
  medium : Int
  hard : Int
  total : Int
  last_updated : Nat
deriving DecidableEq

/-- The row written by `store_user_stats` for `(username, stats)` at time
`now`: the VALUES tuple of the INSERT, which equals the SET list of the
ON CONFLICT DO UPDATE branch. -/
def mkRow (now : Nat) (username : String) (stats : Payload) : PersistedRow :=
  { username := username
    ranking := stats.rankingOf
    reputation := stats.reputationOf
    easy := stats.solvedEasy
    medium := stats.solvedMedium
    hard := stats.solvedHard
    total := stats.solvedAll
    last_updated := now }

/-- `store_user_stats(username, stats)` from `src/app.py` lines 147–174
(equivalent SQLite version in `src/app_local.py` lines 152–177): INSERT
... ON CONFLICT (username) DO UPDATE on the table modelled as a row
list. -/
def store_user_stats (now : Nat) (table : List PersistedRow)
    (username : String) (stats : Payload) : List PersistedRow :=
  if table.any fun r => r.username == username then
    table.map fun r => if r.username == username then mkRow now username stats else r
  else
    table ++ [mkRow now username stats]

/-! ## RefreshCoordinator: `fetch_or_update_user` -/

/-- The mutable state threaded through the pipeline: the `CACHE` dict and
the `leetcode_users` table. -/
structure PState where
  cache : CacheMap
  store : List PersistedRow

/-- `f"lc:{username.lower()}"`.  Lowercasing is applied per character on
the string's character list (the same function as `String.toLower`,
written so that it reduces definitionally on concrete inputs). -/
def cacheKey (username : String) : String :=
  "lc:" ++ String.mk (username.data.map Char.toLower)

/-- Modelled message of the `str(e)` returned by `src/app.py`
`fetch_or_update_user` when `store_user_stats` raises. -/
def storeErrorMessage : String := "database unavailable"

/-- Modelled message of
`f"Network error: {e} (status={status}) body={text}"`. -/
def networkErrorMessage : Option Nat → String
  | some s => "Network error (status=" ++ toString s ++ ")"
  | none => "Network error (status=None)"

/-- The `try: fetch/transform/cache/store` body of `fetch_or_update_user`
(`src/app.py` lines 183–197, `src/app_local.py` lines 186–204), entered
after a cache miss.  `storeFails` says whether `store_user_stats` raises
on this call; `swallowStoreError = true` is the `src/app_local.py`
variant (inner `try/except: pass`), `false` the `src/app.py` variant
(the store exception reaches the outer `except Exception`, after the
cache write has already happened). -/
def fetch_path (swallowStoreError : Bool) (outcomes : Nat → AttemptOutcome)
    (storeFails : Bool) (now : Nat) (st : PState) (username key : String) :
    Payload × PState :=
  match (fetch_leetcode outcomes 2).result with
  | .ok resp =>
    let payload := transform_response (some resp)
    if payload.isOk then
      let cache2 := cache_set st.cache now key payload TTL_SECONDS
      if storeFails then
        (if swallowStoreError then payload else Payload.failure storeErrorMessage,
          { cache := cache2, store := st.store })
      else
        (payload,
          { cache := cache2, store := store_user_stats now st.store username payload })
    else
      (payload, st)
  | .raisedHTTP status => (Payload.failure (networkErrorMessage status), st)
  | .raisedTimeout => (Payload.failure "LeetCode API timed out.", st)
  | .raisedConnection => (Payload.failure (networkErrorMessage none), st)
  | .runtimeError => (Payload.failure "Failed to fetch leetcode profile after retries", st)

/-- `fetch_or_update_user(username)`: the two source variants differ only
in `swallowStoreError` (see `fetch_path`).  First consults the cache
(`if cached and cached.get("ok"): return cached`), then fetches. -/
def fetch_or_update_user_core (swallowStoreError : Bool)
    (outcomes : Nat → AttemptOutcome) (storeFails : Bool) (now : Nat)
    (st : PState) (username : String) : Payload × PState :=
  let key := cacheKey username
  let got := cache_get st.cache now key
  match got.1 with
  | some cached =>
    if cached.isOk then
      (cached, { cache := got.2, store := st.store })
    else
      fetch_path swallowStoreError outcomes storeFails now
        { cache := got.2, store := st.store } username key
  | none =>
    fetch_path swallowStoreError outcomes storeFails now
      { cache := got.2, store := st.store } username key

/-- `fetch_or_update_user` of `src/app.py` lines 177–197. -/
def fetch_or_update_user (outcomes : Nat → AttemptOutcome) (storeFails : Bool)
    (now : Nat) (st : PState) (username : String) : Payload × PState :=
  fetch_or_update_user_core false outcomes storeFails now st username

/-- `fetch_or_update_user` of `src/app_local.py` lines 180–204. -/
def fetch_or_update_user_local (outcomes : Nat → AttemptOutcome) (storeFails : Bool)
    (now : Nat) (st : PState) (username : String) : Payload × PState :=
  fetch_or_update_user_core true outcomes storeFails now st username

/-! ## Bulk upload: `admin_upload` -/

/-- Per-username environment for the bulk operations: the fetch oracle
and whether the store write would raise for that username's call. -/
structure PipelineEnv where
  oracle : String → Nat → AttemptOutcome
  storeFails : String → Bool

/-- The `for username in usernames[:50]` loop body of `admin_upload`
applied to an already-capped list: returns the `results` dict
(`success` and `errors` lists, in loop order), the final state, and the
list of usernames actually passed to `fetch_or_update_user`. -/
def admin_upload_loop (swallowStoreError : Bool) (env : PipelineEnv) (now : Nat) :
    List String → PState → (List String × List String) × PState × List String
  | [], st => (([], []), st, [])
  | u :: rest, st =>
    let r := fetch_or_update_user_core swallowStoreError (env.oracle u)
      (env.storeFails u) now st u
    let tail := admin_upload_loop swallowStoreError env now rest r.2
    if r.1.isOk then
      ((u :: tail.1.1, tail.1.2), tail.2.1, u :: tail.2.2)
    else
      ((tail.1.1, (u ++ ": " ++ r.1.errorMsg) :: tail.1.2), tail.2.1, u :: tail.2.2)

/-- `admin_upload` from `src/app.py` lines 200–215 (`src/app_local.py`
lines 207–224), starting from the parsed non-empty username list: the
loop runs over `usernames[:50]`. -/
def admin_upload (swallowStoreError : Bool) (env : PipelineEnv) (now : Nat)
    (usernames : List String) (st : PState) :
    (List String × List String) × PState × List String :=
  admin_upload_loop swallowStoreError env now (usernames.take 50) st

/-! ## Live refresh: the `refresh_live` block of `api_users` -/

/-- `CACHE.pop(key, None)`. -/
def cache_pop (cache : CacheMap) (key : String) : CacheMap :=
  fun k => if k = key then none else cache k

/-- The `if refresh_live:` block of `api_users` (`src/app.py` lines
292–317): the page's usernames are truncated to the first 10
(`rows[:10]`; `src/app_local.py` uses `MAX_REFRESH = 40`), each one's
cache entry is popped and `fetch_or_update_user` called, per-item
exceptions ignored.  Returns the `live_refreshed` field of the JSON
response, the list of usernames that were refreshed, and the final
state. -/
def api_users_live (cap : Nat) (env : PipelineEnv) (now : Nat)
    (pageRows : List String) (refresh_live : Bool) (st : PState) :
    (Bool × List String) × PState :=
  if refresh_live then
    let todo := pageRows.take cap
    let final := todo.foldl
      (fun s u =>
        let s1 : PState := { cache := cache_pop s.cache (cacheKey u), store := s.store }
        (fetch_or_update_user_core false (env.oracle u) (env.storeFails u) now s1 u).2)
      st
    ((refresh_live, todo), final)
  else
    ((refresh_live, []), st)

/-! ## Background sweep: `admin_refresh_now` and `_refresh_lock`

`admin_refresh_now` (`src/app.py` lines 251–283) spawns a daemon thread
running `with _refresh_lock: refresh_all_users_once()` and immediately
answers `("Refresh started", 202)`, whatever the lock state.  The thread
interleaving is modelled as a transition system over the phases of the
spawned `_run` threads: a thread first waits for `_refresh_lock`, may
acquire it only while no other thread holds it, sweeps, and releases. -/

/-- Phase of one spawned `_run` thread. -/
inductive Phase where
  | waitingLock
  | sweeping
  | finished
deriving DecidableEq

/-- Number of threads currently inside `with _refresh_lock` (sweeping). -/
def sweepCount (s : List Phase) : Nat :=
  s.countP fun p => p == Phase.sweeping

/-- `admin_refresh_now()`: unconditionally spawns a `_run` thread (which
starts by waiting on `_refresh_lock`) and returns the HTTP response
`("Refresh started", 202)`. -/
def admin_refresh_now (s : List Phase) : (String × Nat) × List Phase :=
  (("Refresh started", 202), s ++ [Phase.waitingLock])

/-- Scheduler steps of the refresh subsystem. -/
inductive RefreshStep : List Phase → List Phase → Prop where
  | invoke (s : List Phase) : RefreshStep s (admin_refresh_now s).2
  | acquire (s : List Phase) (i : Nat) (hi : s.get? i = some Phase.waitingLock)
      (hfree : sweepCount s = 0) : RefreshStep s (s.set i Phase.sweeping)
  | release (s : List Phase) (i : Nat) (hi : s.get? i = some Phase.sweeping) :
      RefreshStep s (s.set i Phase.finished)

/-- States reachable from process start (no threads). -/
inductive RefreshReachable : List Phase → Prop where
  | init : RefreshReachable []
  | step {s t : List Phase} : RefreshReachable s → RefreshStep s t → RefreshReachable t

/-! ## Derived predicates and concrete sample inputs used by the claims -/

/-- The retryable attempt outcomes as the spec enumerates them:
HTTP 429, HTTP 499, any 5xx, a connection failure, or a timeout. -/
def retryableOutcome (o : AttemptOutcome) : Prop :=
  o = AttemptOutcome.timeout ∨ o = AttemptOutcome.connectionError ∨
    ∃ s : Nat, o = AttemptOutcome.httpError (some s) ∧
      (s = 429 ∨ s = 499 ∨ (500 ≤ s ∧ s < 600))

/-- The fetch/normalize stage of `fetch_or_update_user` fails for this
oracle: `fetch_leetcode` raises, or the fetched body normalizes to a
non-ok payload. -/
def runFails (outcomes : Nat → AttemptOutcome) : Bool :=
  match (fetch_leetcode outcomes 2).result with
  | .ok resp => !(transform_response (some resp)).isOk
  | _ => true

/-- The four difficulty tiers whose counts `transform_response` reads. -/
def tierLabels : List String := ["All", "Easy", "Medium", "Hard"]

/-- Whether an upstream list item carries one of the four known
difficulty labels. -/
def isTierLabel (it : AcItem) : Bool :=
  tierLabels.any fun d => it.difficulty == some d

/-- `store_user_stats` applied once per timestamp in `ts`, with the same
`(username, stats)` pair each time. -/
def upsertMany (u : String) (stats : Payload) (table : List PersistedRow)
    (ts : List Nat) : List PersistedRow :=
  ts.foldl (fun t now => store_user_stats now t u stats) table

/-- Invariant: every entry of the cache holds a successful payload. -/
def CacheOk (cache : CacheMap) : Prop :=
  ∀ k e, cache k = some e → e.data.isOk = true

/-- Oracle on which every attempt times out. -/
def timeoutOracle : Nat → AttemptOutcome := fun _ => AttemptOutcome.timeout

/-- A successful, already-normalizable upstream body. -/
def sampleResp : RawResponse :=
  { matchedUser := some
      { username := "alice"
        profile := some { ranking := some 100, reputation := some 5 }
        acSubmissionNum :=
          [ { difficulty := some "All", count := some 10 }
          , { difficulty := some "Easy", count := some 5 }
          , { difficulty := some "Medium", count := some 3 }
          , { difficulty := some "Hard", count := some 2 } ] }
    errors := [] }

/-- Oracle on which the first attempt succeeds with `sampleResp`. -/
def okOracle : Nat → AttemptOutcome := fun _ => AttemptOutcome.success sampleResp

/-- A successful normalized payload used as concrete upsert data. -/
def samplePayload : Payload :=
  Payload.success "alice" (some 100) (some 5) { all := 10, easy := 5, medium := 3, hard := 2 }

/-- A cache entry for `alice` that expires at time 5. -/
def staleEntry : CacheEntry :=
  { expiresAt := 5, data := samplePayload }

/-- A cache holding only the `alice` entry. -/
def staleCache : CacheMap :=
  fun k => if k = "lc:alice" then some staleEntry else none

/-- Pipeline state whose cache holds only the (soon stale) `alice`
entry and whose table is empty. -/
def staleState : PState := { cache := staleCache, store := [] }

/-- Pipeline state with an empty cache and an empty table. -/
def emptyState : PState := { cache := fun _ => none, store := [] }

/-- Environment in which every fetch succeeds with `sampleResp` and no
store write fails. -/
def succeedEnv : PipelineEnv :=
  { oracle := fun _ => okOracle, storeFails := fun _ => false }

/-- Environment in which every fetch attempt times out. -/
def failEnv : PipelineEnv :=
  { oracle := fun _ => timeoutOracle, storeFails := fun _ => false }

/-! ## Lemmas about `cache_get` -/

theorem cache_get_absent (cache : CacheMap) (now : Nat) (key : String)
    (h : cache key = none) : cache_get cache now key = (none, cache) := by
  simp [cache_get, h]

theorem cache_get_expired (cache : CacheMap) (now : Nat) (key : String)
    (e : CacheEntry) (h : cache key = some e) (hx : now > e.expiresAt) :
    cache_get cache now key = (none, fun k => if k = key then none else cache k) := by
  simp [cache_get, h, hx]

theorem cache_get_fresh (cache : CacheMap) (now : Nat) (key : String)
    (e : CacheEntry) (h : cache key = some e) (hx : ¬ now > e.expiresAt) :
    cache_get cache now key = (some e.data, cache) := by
  simp [cache_get, h, hx]

theorem cache_get_snd_ne (cache : CacheMap) (now : Nat) (key k : String)
    (hk : k ≠ key) : (cache_get cache now key).2 k = cache k := by
  unfold cache_get
  cases h : cache key with
  | none => rfl
  | some e =>
    by_cases hx : now > e.expiresAt
    · simp [hx, hk]
    · simp [hx]

/-- Claim C4: for every key and current time `now`, `cache_get` returns
`None` and removes the entry when `now` is strictly greater than the
entry's `expiresAt`; otherwise it returns exactly the stored record and
leaves the cache unchanged; a get on an absent key returns `None`
without modifying the cache.  Eviction happens only inside this
access-time check. -/
theorem claim_C4_cache_get_lazy_expiry (cache : CacheMap) (now : Nat) (key : String) :
    (cache key = none → cache_get cache now key = (none, cache)) ∧
    (∀ e : CacheEntry, cache key = some e → now > e.expiresAt →
      (cache_get cache now key).1 = none ∧
      (cache_get cache now key).2 key = none ∧
      (∀ k, k ≠ key → (cache_get cache now key).2 k = cache k)) ∧
    (∀ e : CacheEntry, cache key = some e → ¬ now > e.expiresAt →
      cache_get cache now key = (some e.data, cache)) := by
  refine ⟨fun h => cache_get_absent cache now key h, fun e h hx => ?_,
    fun e h hx => cache_get_fresh cache now key e h hx⟩
  rw [cache_get_expired cache now key e h hx]
  exact ⟨rfl, by simp, fun k hk => by simp [hk]⟩

/-- Witness for claim C4 at concrete inputs: the `alice` entry expiring
at time 5 is evicted and missed at time 10, returned unchanged at
time 3, and a get on an absent key at time 10 modifies nothing. -/
theorem claim_C4_witness :
    ((cache_get staleCache 10 "lc:alice").1 = none ∧
      (cache_get staleCache 10 "lc:alice").2 "lc:alice" = none) ∧
    cache_get staleCache 3 "lc:alice" = (some samplePayload, staleCache) ∧
    cache_get staleCache 10 "lc:bob" = (none, staleCache) :=
  ⟨⟨((claim_C4_cache_get_lazy_expiry staleCache 10 "lc:alice").2.1 staleEntry
      (by decide) (by decide)).1,
    ((claim_C4_cache_get_lazy_expiry staleCache 10 "lc:alice").2.1 staleEntry
      (by decide) (by decide)).2.1⟩,
   (claim_C4_cache_get_lazy_expiry staleCache 3 "lc:alice").2.2 staleEntry
     (by decide) (by decide),
   (claim_C4_cache_get_lazy_expiry staleCache 10 "lc:bob").1 (by decide)⟩

/-! ## Lemmas about `fetch_leetcode` -/

theorem retryableStatus_of_retryableOutcome (status : Option Nat)
    (h : retryableOutcome (AttemptOutcome.httpError status)) :
    retryableStatus status = true := by
  rcases h with h | h | ⟨s, hs, hcond⟩
  · exact absurd h (by simp)
  · exact absurd h (by simp)
  · cases hs
    simp [retryableStatus]
    tauto

theorem fetch_loop_all_retryable (outcomes : Nat → AttemptOutcome) (retries : Nat)
    (h : ∀ n, retryableOutcome (outcomes n)) :
    ∀ (fuel attempt sleeps : Nat), attempt + fuel = retries + 1 →
      (fetch_loop outcomes retries attempt sleeps fuel).attempts = retries + 1 := by
  intro fuel
  induction fuel with
  | zero =>
    intro attempt sleeps hsum
    simp only [fetch_loop]
    omega
  | succ n ih =>
    intro attempt sleeps hsum
    rcases h attempt with h1 | h1 | ⟨s, h1, hcond⟩ <;>
      simp only [fetch_loop, h1]
    · by_cases hlt : attempt < retries
      · rw [if_pos hlt]
        exact ih (attempt + 1) (sleeps + 1) (by omega)
      · rw [if_neg hlt]
        simp only []
        omega
    · by_cases hlt : attempt < retries
      · rw [if_pos hlt]
        exact ih (attempt + 1) (sleeps + 1) (by omega)
      · rw [if_neg hlt]
        simp only []
        omega
    · have hr : retryableStatus (some s) = true := by
        simp [retryableStatus]
        tauto
      by_cases hlt : attempt < retries
      · rw [if_pos ⟨hr, hlt⟩]
        exact ih (attempt + 1) (sleeps + 1) (by omega)
      · rw [if_neg (fun hc => hlt hc.2)]
        simp only []
        omega

/-- Claim C2: `fetch_leetcode` makes at most `retries + 1` total attempts
when every attempt fails retryably (HTTP 429, HTTP 499, any 5xx, a
connection failure, or a timeout), and for a non-retryable HTTP error
(any 4xx other than 429 and 499) on the first attempt it makes exactly
one attempt and re-raises that error immediately, without sleeping or
retrying. -/
theorem claim_C2_fetch_retry_policy (outcomes : Nat → AttemptOutcome) (retries : Nat) :
    ((∀ n, retryableOutcome (outcomes n)) →
      (fetch_leetcode outcomes retries).attempts ≤ retries + 1) ∧
    (∀ s : Nat, outcomes 0 = AttemptOutcome.httpError (some s) →
      400 ≤ s → s < 500 → s ≠ 429 → s ≠ 499 →
      fetch_leetcode outcomes retries =
        { result := FetchResult.raisedHTTP (some s), attempts := 1, sleeps := 0 }) := by
  constructor
  · intro h
    have hx := fetch_loop_all_retryable outcomes retries h (retries + 1) 0 0 (by omega)
    unfold fetch_leetcode
    omega
  · intro s hs h4a h4b h429 h499
    have hr : ¬ (retryableStatus (some s) = true ∧ 0 < retries) := by
      intro hc
      have := hc.1
      simp [retryableStatus] at this
      omega
    unfold fetch_leetcode
    simp only [fetch_loop, hs]
    rw [if_neg hr]

/-- Witness for claim C2: with every attempt timing out and
`retries = 2`, at most 3 attempts happen; with a 404 on the first
attempt, the run is exactly one attempt, zero sleeps, raising the 404. -/
theorem claim_C2_witness :
    (fetch_leetcode timeoutOracle 2).attempts ≤ 3 ∧
    fetch_leetcode (fun _ => AttemptOutcome.httpError (some 404)) 2 =
      { result := FetchResult.raisedHTTP (some 404), attempts := 1, sleeps := 0 } :=
  ⟨(claim_C2_fetch_retry_policy timeoutOracle 2).1 (fun _ => Or.inl rfl),
   (claim_C2_fetch_retry_policy (fun _ => AttemptOutcome.httpError (some 404)) 2).2 404
     rfl (by decide) (by decide) (by decide) (by decide)⟩

/-! ## Lemmas about `transform_response` -/

theorem lookupCount_eq_zero (items : List AcItem) (d : String)
    (h : ∀ it ∈ items, it.difficulty ≠ some d) : lookupCount items d = 0 := by
  unfold lookupCount
  have hnil : items.filter (fun it => it.difficulty == some d) = [] := by
    rw [List.filter_eq_nil_iff]
    intro a ha
    simp [h a ha]
  rw [hnil]
  rfl

theorem filter_filter_of_imp (p q : AcItem → Bool)
    (h : ∀ a, q a = true → p a = true) :
    ∀ l : List AcItem, (l.filter p).filter q = l.filter q := by
  intro l
  induction l with
  | nil => rfl
  | cons a l ih =>
    by_cases hp : p a = true
    · by_cases hq : q a = true <;> simp [List.filter_cons, hp, hq, ih]
    · have hq : q a = false := by
        cases hqa : q a
        · rfl
        · exact absurd (h a hqa) hp
      simp [List.filter_cons, hp, hq, ih]

theorem lookupCount_filter_tiers (items : List AcItem) (d : String)
    (hd : d ∈ tierLabels) :
    lookupCount (items.filter isTierLabel) d = lookupCount items d := by
  unfold lookupCount
  rw [filter_filter_of_imp isTierLabel (fun it => it.difficulty == some d)
    (fun a ha => List.any_eq_true.mpr ⟨d, hd, ha⟩) items]

/-- Claim C3: `transform_response` yields a GraphQL-errors failure when
the matched-user object is absent and the error list is nonempty, a
not-found failure when the matched-user object is absent and there is no
error list, and otherwise a success record with nullable ranking and
reputation whose solved map has exactly the keys `All`, `Easy`,
`Medium`, `Hard`; a tier missing from the difficulty/count list defaults
to 0, and items with unknown difficulty labels never change the result
(they are ignored, not errors). -/
theorem claim_C3_normalizer :
    (∀ errs : List String, errs ≠ [] →
      transform_response (some { matchedUser := none, errors := errs }) =
        Payload.failure ("GraphQL errors: " ++ String.intercalate ", " errs)) ∧
    (transform_response (some { matchedUser := none, errors := [] }) =
      Payload.failure "User not found or profile is private.") ∧
    (∀ (m : MatchedUser) (errs : List String),
      transform_response (some { matchedUser := some m, errors := errs }) =
        Payload.success m.username
          (m.profile.getD { ranking := none, reputation := none }).ranking
          (m.profile.getD { ranking := none, reputation := none }).reputation
          { all := lookupCount m.acSubmissionNum "All"
            easy := lookupCount m.acSubmissionNum "Easy"
            medium := lookupCount m.acSubmissionNum "Medium"
            hard := lookupCount m.acSubmissionNum "Hard" }) ∧
    (∀ (items : List AcItem) (d : String),
      (∀ it ∈ items, it.difficulty ≠ some d) → lookupCount items d = 0) ∧
    (∀ (m : MatchedUser) (errs : List String),
      transform_response (some
        { matchedUser := some { m with acSubmissionNum := m.acSubmissionNum.filter isTierLabel }
          errors := errs }) =
      transform_response (some { matchedUser := some m, errors := errs })) := by
  refine ⟨fun errs h => ?_, rfl, fun m errs => rfl, lookupCount_eq_zero, fun m errs => ?_⟩
  · simp [transform_response, h]
  · simp only [transform_response]
    rw [lookupCount_filter_tiers m.acSubmissionNum "All" (by simp [tierLabels]),
      lookupCount_filter_tiers m.acSubmissionNum "Easy" (by simp [tierLabels]),
      lookupCount_filter_tiers m.acSubmissionNum "Medium" (by simp [tierLabels]),
      lookupCount_filter_tiers m.acSubmissionNum "Hard" (by simp [tierLabels])]

/-- Witness for claim C3: a nonempty error list yields the GraphQL-errors
failure, and a list carrying only an `All` item gives an `Easy` count
of 0. -/
theorem claim_C3_witness :
    transform_response (some { matchedUser := none, errors := ["boom"] }) =
      Payload.failure "GraphQL errors: boom" ∧
    lookupCount [{ difficulty := some "All", count := some 3 }] "Easy" = 0 :=
  ⟨claim_C3_normalizer.1 ["boom"] (by decide),
   claim_C3_normalizer.2.2.2.1 [{ difficulty := some "All", count := some 3 }] "Easy"
     (by decide)⟩

/-! ## Lemmas about `store_user_stats` -/

theorem countP_map_upsert (now : Nat) (u : String) (stats : Payload) :
    ∀ table : List PersistedRow,
      (table.map fun r => if r.username == u then mkRow now u stats else r).countP
          (fun r => r.username == u) =
        table.countP (fun r => r.username == u) := by
  intro table
  rw [List.countP_map]
  apply List.countP_congr
  intro a _
  by_cases hh : (a.username == u) = true
  · simp only [Function.comp_apply, if_pos hh, hh]
    simp [mkRow]
  · simp only [Function.comp_apply, if_neg hh]

theorem store_upsert_count (now : Nat) (table : List PersistedRow) (u : String)
    (stats : Payload) (h : table.countP (fun r => r.username == u) ≤ 1) :
    (store_user_stats now table u stats).countP (fun r => r.username == u) = 1 := by
  unfold store_user_stats
  by_cases ha : (table.any fun r => r.username == u) = true
  · rw [if_pos ha, countP_map_upsert]
    rcases List.any_eq_true.mp ha with ⟨x, hx, hpx⟩
    have hpos : 0 < table.countP (fun r => r.username == u) :=
      List.countP_pos_iff.mpr ⟨x, hx, hpx⟩
    omega
  · rw [if_neg ha]
    have hz : table.countP (fun r => r.username == u) = 0 := by
      rw [List.countP_eq_zero]
      intro a hmem hpa
      exact ha (List.any_eq_true.mpr ⟨a, hmem, hpa⟩)
    have hm : ((mkRow now u stats).username == u) = true := by simp [mkRow]
    simp [List.countP_append, hz, List.countP_cons, hm]

theorem store_upsert_row (now : Nat) (table : List PersistedRow) (u : String)
    (stats : Payload) :
    ∀ r ∈ store_user_stats now table u stats, r.username = u → r = mkRow now u stats := by
  intro r hr hu
  unfold store_user_stats at hr
  by_cases ha : (table.any fun x => x.username == u) = true
  · rw [if_pos ha] at hr
    rcases List.mem_map.mp hr with ⟨x, _, hxe⟩
    by_cases hxu : (x.username == u) = true
    · rw [if_pos hxu] at hxe
      exact hxe.symm
    · rw [if_neg hxu] at hxe
      subst hxe
      exact absurd (beq_iff_eq.mpr hu) hxu
  · rw [if_neg ha] at hr
    rcases List.mem_append.mp hr with h1 | h1
    · have hc : (table.any fun x => x.username == u) = true :=
        List.any_eq_true.mpr ⟨r, h1, beq_iff_eq.mpr hu⟩
      exact absurd hc ha
    · simpa using h1

theorem upsertMany_spec (u : String) (stats : Payload) :
    ∀ (ts : List Nat) (table : List PersistedRow),
      table.countP (fun r => r.username == u) ≤ 1 →
      ∀ h2 : ts ≠ [],
        (upsertMany u stats table ts).countP (fun r => r.username == u) = 1 ∧
        (∀ r ∈ upsertMany u stats table ts, r.username = u →
          r = mkRow (ts.getLast h2) u stats) := by
  intro ts
  induction ts with
  | nil =>
    intro table _ h2
    exact absurd rfl h2
  | cons t tl ih =>
    intro table h1 h2
    cases tl with
    | nil =>
      refine ⟨store_upsert_count t table u stats h1, ?_⟩
      intro r hr hu
      exact store_upsert_row t table u stats r hr hu
    | cons t2 rest =>
      have hstep : upsertMany u stats table (t :: t2 :: rest) =
          upsertMany u stats (store_user_stats t table u stats) (t2 :: rest) := rfl
      have hle : (store_user_stats t table u stats).countP (fun r => r.username == u) ≤ 1 := by
        rw [store_upsert_count t table u stats h1]
      have hne : (t2 :: rest : List Nat) ≠ [] := by simp
      obtain ⟨hc, hrow⟩ := ih (store_user_stats t table u stats) hle hne
      rw [hstep]
      refine ⟨hc, ?_⟩
      intro r hr hu
      rw [List.getLast_cons hne]
      exact hrow r hr hu

/-- Claim C5: applying `store_user_stats` any number `N ≥ 1` of times
with the identical `(username, record)` pair to a table satisfying the
UNIQUE constraint yields exactly one row for that username; each
application leaves the row identical except for the refreshed
`last_updated` timestamp, and no duplicate row for the username is ever
created. -/
theorem claim_C5_upsert_idempotent (u : String) (stats : Payload)
    (table : List PersistedRow) (ts : List Nat)
    (h1 : table.countP (fun r => r.username == u) ≤ 1) (h2 : ts ≠ []) :
    (upsertMany u stats table ts).countP (fun r => r.username == u) = 1 ∧
    (∀ r ∈ upsertMany u stats table ts, r.username = u →
      r = mkRow (ts.getLast h2) u stats) ∧
    (∀ t t2 : Nat, mkRow t u stats = { mkRow t2 u stats with last_updated := t }) := by
  obtain ⟨hc, hrow⟩ := upsertMany_spec u stats ts table h1 h2
  exact ⟨hc, hrow, fun t t2 => rfl⟩

/-- Witness for claim C5: three repeated upserts of `samplePayload` for
`alice` into an empty table leave exactly one `alice` row. -/
theorem claim_C5_witness :
    (upsertMany "alice" samplePayload [] [1, 2, 3]).countP
      (fun r => r.username == "alice") = 1 :=
  (claim_C5_upsert_idempotent "alice" samplePayload [] [1, 2, 3]
    (by decide) (by decide)).1

/-! ## Lemmas about `fetch_or_update_user` -/

theorem fetch_path_fail (swallow : Bool) (outcomes : Nat → AttemptOutcome)
    (storeFails : Bool) (now : Nat) (st : PState) (username key : String)
    (hfail : runFails outcomes = true) :
    (fetch_path swallow outcomes storeFails now st username key).1.isOk = false ∧
    (fetch_path swallow outcomes storeFails now st username key).2 = st := by
  unfold fetch_path
  unfold runFails at hfail
  cases hres : (fetch_leetcode outcomes 2).result with
  | ok resp =>
    rw [hres] at hfail
    simp only [Bool.not_eq_true'] at hfail
    simp [hfail]
  | raisedHTTP status => simp [Payload.isOk]
  | raisedTimeout => simp [Payload.isOk]
  | raisedConnection => simp [Payload.isOk]
  | runtimeError => simp [Payload.isOk]

theorem fetch_path_success (swallow : Bool) (outcomes : Nat → AttemptOutcome)
    (storeFails : Bool) (now : Nat) (st : PState) (username key : String)
    (resp : RawResponse) (hfetch : (fetch_leetcode outcomes 2).result = FetchResult.ok resp)
    (hok : (transform_response (some resp)).isOk = true) :
    fetch_path swallow outcomes storeFails now st username key =
      (if storeFails then
          (if swallow then transform_response (some resp)
            else Payload.failure storeErrorMessage)
        else transform_response (some resp),
        { cache := cache_set st.cache now key (transform_response (some resp)) TTL_SECONDS
          store := if storeFails then st.store
            else store_user_stats now st.store username (transform_response (some resp)) }) := by
  unfold fetch_path
  rw [hfetch]
  simp only [hok, if_true]
  cases storeFails <;> simp

theorem core_miss (swallow : Bool) (outcomes : Nat → AttemptOutcome)
    (storeFails : Bool) (now : Nat) (st : PState) (username : String)
    (hmiss : ((cache_get st.cache now (cacheKey username)).1.all fun c => !c.isOk) = true) :
    fetch_or_update_user_core swallow outcomes storeFails now st username =
      fetch_path swallow outcomes storeFails now
        { cache := (cache_get st.cache now (cacheKey username)).2, store := st.store }
        username (cacheKey username) := by
  unfold fetch_or_update_user_core
  cases hget : (cache_get st.cache now (cacheKey username)).1 with
  | none => simp [hget]
  | some cached =>
    rw [hget] at hmiss
    simp only [Option.all_some, Bool.not_eq_true'] at hmiss
    simp [hget, hmiss]

theorem core_hit (swallow : Bool) (outcomes : Nat → AttemptOutcome)
    (storeFails : Bool) (now : Nat) (st : PState) (username : String)
    (e : CacheEntry) (he : st.cache (cacheKey username) = some e)
    (hfresh : ¬ now > e.expiresAt) (hok : e.data.isOk = true) :
    fetch_or_update_user_core swallow outcomes storeFails now st username = (e.data, st) := by
  simp only [fetch_or_update_user_core]
  rw [cache_get_fresh st.cache now (cacheKey username) e he hfresh]
  simp [hok]

/-- Counterexample to claim C1 as stated: with the cache holding an
`alice` entry that expired at time 5, a failing refresh at time 10
(every fetch attempt times out) returns a typed failure but does write
to the cache — `cache_get` evicts the expired entry, so the previously
cached record for `alice` is removed, not left unchanged. -/
theorem claim_C1_counterexample :
    (fetch_or_update_user timeoutOracle false 10 staleState "alice").1.isOk = false ∧
    staleState.cache "lc:alice" = some staleEntry ∧
    (fetch_or_update_user timeoutOracle false 10 staleState "alice").2.cache "lc:alice" = none := by
  refine ⟨by decide, by decide, by decide⟩

/-- Claim C1 amended: when the fetch raises after exhausting retries or
normalization yields a NotFound/UpstreamErrors failure (and the cache
has no fresh successful hit), `fetch_or_update_user` — in both source
variants — returns a typed failure, writes nothing to the Store, and
writes nothing to the Cache beyond the lazy eviction, performed by
`cache_get`, of the username's already-expired entry: every other key is
unchanged, and if the username's entry is unexpired the whole cache is
unchanged. -/
theorem claim_C1_amended (swallow : Bool) (outcomes : Nat → AttemptOutcome)
    (storeFails : Bool) (now : Nat) (st : PState) (username : String)
    (hmiss : ((cache_get st.cache now (cacheKey username)).1.all fun c => !c.isOk) = true)
    (hfail : runFails outcomes = true) :
    ((fetch_or_update_user_core swallow outcomes storeFails now st username).1.isOk = false) ∧
    ((fetch_or_update_user_core swallow outcomes storeFails now st username).2.store = st.store) ∧
    ((fetch_or_update_user_core swallow outcomes storeFails now st username).2.cache =
      (cache_get st.cache now (cacheKey username)).2) ∧
    (∀ k, k ≠ cacheKey username →
      (fetch_or_update_user_core swallow outcomes storeFails now st username).2.cache k =
        st.cache k) ∧
    (∀ e, st.cache (cacheKey username) = some e → ¬ now > e.expiresAt →
      (fetch_or_update_user_core swallow outcomes storeFails now st username).2.cache =
        st.cache) := by
  rw [core_miss swallow outcomes storeFails now st username hmiss]
  obtain ⟨hres, hstate⟩ := fetch_path_fail swallow outcomes storeFails now
    { cache := (cache_get st.cache now (cacheKey username)).2, store := st.store }
    username (cacheKey username) hfail
  rw [hstate]
  refine ⟨hres, rfl, rfl, fun k hk => cache_get_snd_ne st.cache now (cacheKey username) k hk,
    fun e he hfresh => ?_⟩
  rw [cache_get_fresh st.cache now (cacheKey username) e he hfresh]

/-- Witness for the amended claim C1: a failing refresh for `alice`
against the empty state returns a failure and leaves the empty store
untouched. -/
theorem claim_C1_witness :
    (fetch_or_update_user_core false timeoutOracle false 0 emptyState "alice").1.isOk = false ∧
    (fetch_or_update_user_core false timeoutOracle false 0 emptyState "alice").2.store =
      emptyState.store :=
  ⟨(claim_C1_amended false timeoutOracle false 0 emptyState "alice" (by decide) (by decide)).1,
   (claim_C1_amended false timeoutOracle false 0 emptyState "alice" (by decide) (by decide)).2.1⟩

/-- Claim C6: if the fetch and normalization succeed but the store write
fails (`storeFails = true`), the freshly fetched record is still written
to the cache under the username's key and the store is untouched — in
both source variants (`swallow` selects `src/app_local.py` versus
`src/app.py`) — and any following `fetch_or_update_user` within the TTL
returns the new record from the cache, whatever its own oracle and
store behaviour. -/
theorem claim_C6_cache_survives_store_failure (swallow : Bool)
    (outcomes : Nat → AttemptOutcome) (now : Nat) (st : PState) (username : String)
    (resp : RawResponse)
    (hmiss : ((cache_get st.cache now (cacheKey username)).1.all fun c => !c.isOk) = true)
    (hfetch : (fetch_leetcode outcomes 2).result = FetchResult.ok resp)
    (hok : (transform_response (some resp)).isOk = true) :
    ((fetch_or_update_user_core swallow outcomes true now st username).2.cache
        (cacheKey username) =
      some { expiresAt := now + TTL_SECONDS, data := transform_response (some resp) }) ∧
    ((fetch_or_update_user_core swallow outcomes true now st username).2.store = st.store) ∧
    (∀ now2 : Nat, ¬ now2 > now + TTL_SECONDS →
      ∀ (swallow2 : Bool) (outcomes2 : Nat → AttemptOutcome) (storeFails2 : Bool),
        (fetch_or_update_user_core swallow2 outcomes2 storeFails2 now2
            (fetch_or_update_user_core swallow outcomes true now st username).2
            username).1 =
          transform_response (some resp)) := by
  rw [core_miss swallow outcomes true now st username hmiss]
  rw [fetch_path_success swallow outcomes true now
    { cache := (cache_get st.cache now (cacheKey username)).2, store := st.store }
    username (cacheKey username) resp hfetch hok]
  simp only [if_true]
  have hkey : cache_set (cache_get st.cache now (cacheKey username)).2 now
      (cacheKey username) (transform_response (some resp)) TTL_SECONDS (cacheKey username) =
      some { expiresAt := now + TTL_SECONDS, data := transform_response (some resp) } := by
    simp [cache_set]
  refine ⟨hkey, by simp, fun now2 hfresh swallow2 outcomes2 storeFails2 => ?_⟩
  rw [core_hit swallow2 outcomes2 storeFails2 now2 _ username
    { expiresAt := now + TTL_SECONDS, data := transform_response (some resp) } hkey hfresh hok]

/-- Witness for claim C6: a successful fetch for `alice` with a failing
store write leaves the normalized record cached under `lc:alice`. -/
theorem claim_C6_witness :
    (fetch_or_update_user_core true okOracle true 0 emptyState "alice").2.cache
        (cacheKey "alice") =
      some { expiresAt := 0 + TTL_SECONDS, data := transform_response (some sampleResp) } :=
  (claim_C6_cache_survives_store_failure true okOracle 0 emptyState "alice" sampleResp
    (by decide) (by decide) (by decide)).1

/-! ## Lemmas about the cache invariant -/

theorem CacheOk_cache_get (cache : CacheMap) (now : Nat) (key : String)
    (h : CacheOk cache) : CacheOk (cache_get cache now key).2 := by
  unfold cache_get
  cases hk : cache key with
  | none => exact h
  | some e =>
    by_cases hx : now > e.expiresAt
    · simp only [hx, if_true]
      intro k entry hke
      by_cases hkey : k = key
      · simp [hkey] at hke
      · simp only [hkey, if_false] at hke
        exact h k entry hke
    · simp only [hx, if_false]
      exact h

theorem CacheOk_cache_set (cache : CacheMap) (now : Nat) (key : String)
    (p : Payload) (ttl : Nat) (h : CacheOk cache) (hp : p.isOk = true) :
    CacheOk (cache_set cache now key p ttl) := by
  intro k entry hke
  unfold cache_set at hke
  by_cases hkey : k = key
  · simp only [hkey, if_true, if_pos rfl] at hke
    cases hke
    exact hp
  · simp only [hkey, if_false] at hke
    exact h k entry hke

theorem CacheOk_fetch_path (swallow : Bool) (outcomes : Nat → AttemptOutcome)
    (storeFails : Bool) (now : Nat) (st : PState) (username key : String)
    (h : CacheOk st.cache) :
    CacheOk (fetch_path swallow outcomes storeFails now st username key).2.cache := by
  unfold fetch_path
  cases hres : (fetch_leetcode outcomes 2).result with
  | ok resp =>
    by_cases hok : (transform_response (some resp)).isOk = true
    · cases storeFails <;>
        simp only [hok, if_true, if_false, Bool.false_eq_true] <;>
        exact CacheOk_cache_set st.cache now key (transform_response (some resp))
          TTL_SECONDS h hok
    · simp only [hok, if_false]
      simpa using h
  | raisedHTTP status => exact h
  | raisedTimeout => exact h
  | raisedConnection => exact h
  | runtimeError => exact h

/-- Claim C10: if every cache entry holds a successful payload, then it
still does after any `fetch_or_update_user` call (in either variant,
with any oracle, store behaviour and time) — `cache_set` is only ever
invoked on payloads whose ok field holds — and a cache hit served by
`fetch_or_update_user` is the previously stored record, which is a
successfully fetched-and-normalized payload, never a replayed error. -/
theorem claim_C10_cache_holds_only_ok (swallow : Bool)
    (outcomes : Nat → AttemptOutcome) (storeFails : Bool) (now : Nat)
    (st : PState) (username : String) (h : CacheOk st.cache) :
    CacheOk (fetch_or_update_user_core swallow outcomes storeFails now st username).2.cache ∧
    (∀ e, st.cache (cacheKey username) = some e → ¬ now > e.expiresAt →
      (fetch_or_update_user_core swallow outcomes storeFails now st username).1 = e.data ∧
      e.data.isOk = true) := by
  constructor
  · simp only [fetch_or_update_user_core]
    cases hget : (cache_get st.cache now (cacheKey username)).1 with
    | none =>
      simp only []
      exact CacheOk_fetch_path swallow outcomes storeFails now
        { cache := (cache_get st.cache now (cacheKey username)).2, store := st.store }
        username (cacheKey username)
        (CacheOk_cache_get st.cache now (cacheKey username) h)
    | some cached =>
      by_cases hco : cached.isOk = true
      · simp only [hco, if_true]
        exact CacheOk_cache_get st.cache now (cacheKey username) h
      · simp only [hco, if_false]
        exact CacheOk_fetch_path swallow outcomes storeFails now
          { cache := (cache_get st.cache now (cacheKey username)).2, store := st.store }
          username (cacheKey username)
          (CacheOk_cache_get st.cache now (cacheKey username) h)
  · intro e he hfresh
    have hok : e.data.isOk = true := h (cacheKey username) e he
    exact ⟨by
      rw [core_hit swallow outcomes storeFails now st username e he hfresh hok], hok⟩

/-- Witness for claim C10: starting from the empty cache (trivially
all-ok), the cache still holds only ok payloads after a refresh of
`bob`. -/
theorem claim_C10_witness :
    CacheOk (fetch_or_update_user_core false okOracle false 0 emptyState "bob").2.cache :=
  (claim_C10_cache_holds_only_ok false okOracle false 0 emptyState "bob"
    (fun _ _ hke => nomatch hke)).1

/-! ## Lemmas about `admin_upload` -/

theorem admin_upload_loop_spec (swallow : Bool) (env : PipelineEnv) (now : Nat) :
    ∀ (names : List String) (st : PState),
      (admin_upload_loop swallow env now names st).2.2 = names ∧
      (admin_upload_loop swallow env now names st).1.1.length +
          (admin_upload_loop swallow env now names st).1.2.length = names.length ∧
      (∀ u ∈ (admin_upload_loop swallow env now names st).1.1, u ∈ names) := by
  intro names
  induction names with
  | nil =>
    intro st
    exact ⟨rfl, rfl, by simp [admin_upload_loop]⟩
  | cons u rest ih =>
    intro st
    obtain ⟨h1, h2, h3⟩ :=
      ih (fetch_or_update_user_core swallow (env.oracle u) (env.storeFails u) now st u).2
    simp only [admin_upload_loop]
    by_cases hok :
        (fetch_or_update_user_core swallow (env.oracle u) (env.storeFails u) now st u).1.isOk
          = true
    · rw [if_pos hok]
      refine ⟨by rw [h1], by simp only [List.length_cons]; omega, ?_⟩
      intro x hx
      rcases List.mem_cons.mp hx with hx | hx
      · exact hx ▸ List.mem_cons_self u rest
      · exact List.mem_cons_of_mem u (h3 x hx)
    · rw [if_neg hok]
      refine ⟨by rw [h1], by simp only [List.length_cons]; omega, ?_⟩
      intro x hx
      exact List.mem_cons_of_mem u (h3 x hx)

/-- Claim C7: `admin_upload` processes at most the first 50 entries of
the given username list, invoking `fetch_or_update_user` exactly once
per processed username and in order; its result is a per-username
partition into a success list and an error list — together they have one
entry per processed username, so one failing username never aborts the
remaining usernames of the capped batch — and every reported success is
one of the processed usernames. -/
theorem claim_C7_bulk_upload_capped (swallow : Bool) (env : PipelineEnv) (now : Nat)
    (usernames : List String) (st : PState) :
    (admin_upload swallow env now usernames st).2.2 = usernames.take 50 ∧
    (admin_upload swallow env now usernames st).1.1.length +
        (admin_upload swallow env now usernames st).1.2.length =
      (usernames.take 50).length ∧
    (admin_upload swallow env now usernames st).2.2.length ≤ 50 ∧
    (∀ u ∈ (admin_upload swallow env now usernames st).1.1, u ∈ usernames.take 50) := by
  unfold admin_upload
  obtain ⟨h1, h2, h3⟩ := admin_upload_loop_spec swallow env now (usernames.take 50) st
  exact ⟨h1, h2, by rw [h1]; simp [List.length_take], h3⟩

/-- Witness for claim C7: a two-username batch is processed in full and
in order. -/
theorem claim_C7_witness :
    (admin_upload false succeedEnv 0 ["ann", "bob"] emptyState).2.2 = ["ann", "bob"] :=
  (claim_C7_bulk_upload_capped false succeedEnv 0 ["ann", "bob"] emptyState).1

/-! ## Lemmas about the refresh lock -/

theorem countP_set_le (p : Phase → Bool) :
    ∀ (l : List Phase) (i : Nat) (a : Phase),
      (l.set i a).countP p ≤ l.countP p + (if p a then 1 else 0) := by
  intro l
  induction l with
  | nil =>
    intro i a
    simp [List.set]
  | cons x xs ih =>
    intro i a
    cases i with
    | zero =>
      simp only [List.set, List.countP_cons]
      by_cases hpa : p a = true <;> by_cases hpx : p x = true <;> simp [hpa, hpx]
    | succ n =>
      have hx := ih n a
      simp only [List.set, List.countP_cons]
      by_cases hpa : p a = true <;> by_cases hpx : p x = true <;>
        simp [hpa, hpx] at hx ⊢ <;> omega

theorem sweepCount_step {s t : List Phase} (hstep : RefreshStep s t)
    (h : sweepCount s ≤ 1) : sweepCount t ≤ 1 := by
  cases hstep with
  | invoke =>
    have hw : List.countP (fun p => p == Phase.sweeping) [Phase.waitingLock] = 0 := by decide
    unfold sweepCount at *
    simp only [admin_refresh_now, List.countP_append, hw]
    omega
  | acquire i hi hfree =>
    have hx := countP_set_le (fun p => p == Phase.sweeping) s i Phase.sweeping
    have hone : (if (Phase.sweeping == Phase.sweeping) = true then 1 else 0) = 1 := by decide
    unfold sweepCount at *
    rw [hone] at hx
    omega
  | release i hi =>
    have hx := countP_set_le (fun p => p == Phase.sweeping) s i Phase.finished
    have hzero : (if (Phase.finished == Phase.sweeping) = true then 1 else 0) = 0 := by decide
    unfold sweepCount at *
    rw [hzero] at hx
    omega

theorem refresh_mutex (s : List Phase) (h : RefreshReachable s) : sweepCount s ≤ 1 := by
  induction h with
  | init => simp [sweepCount]
  | step _ hstep ih => exact sweepCount_step hstep ih

/-- Counterexample to claim C8 as stated: an invocation of
`admin_refresh_now` arriving while a sweep is active is not rejected
with an already-running result — it answers `("Refresh started", 202)`
exactly as a first invocation does, and its sweep is enqueued behind the
lock (a new waiting thread is spawned). -/
theorem claim_C8_counterexample :
    (admin_refresh_now [Phase.sweeping]).1 = ("Refresh started", 202) ∧
    (admin_refresh_now [Phase.sweeping]).2 = [Phase.sweeping, Phase.waitingLock] :=
  ⟨rfl, rfl⟩

/-- Claim C8 amended: at most one sweep is in progress process-wide in
every reachable state — two invocations never run their sweeps in
parallel, because a `_run` thread acquires `_refresh_lock` only while no
other thread is sweeping — but an invocation arriving while a sweep is
active is not rejected: `admin_refresh_now` always answers
`("Refresh started", 202)` and defers the new sweep by leaving its
thread waiting on the lock. -/
theorem claim_C8_single_sweep (s : List Phase) (h : RefreshReachable s) :
    sweepCount s ≤ 1 ∧
    (admin_refresh_now s).1 = ("Refresh started", 202) ∧
    (admin_refresh_now s).2 = s ++ [Phase.waitingLock] :=
  ⟨refresh_mutex s h, rfl, rfl⟩

/-- Witness for the amended claim C8, at the concrete reachable state
with one active sweep. -/
theorem claim_C8_witness : sweepCount [Phase.sweeping] ≤ 1 := by
  have h1 : RefreshReachable [Phase.waitingLock] :=
    RefreshReachable.step RefreshReachable.init (RefreshStep.invoke [])
  have h2 : RefreshReachable [Phase.sweeping] :=
    RefreshReachable.step h1 (RefreshStep.acquire [Phase.waitingLock] 0 rfl rfl)
  exact (claim_C8_single_sweep [Phase.sweeping] h2).1

/-! ## The live-refresh path of `api_users` -/

/-- Counterexample to claim C9 as stated: the live-refresh path of
`api_users` reports no `timedOut` flag that is true exactly when not all
items completed — the only flag in the response, `live_refreshed`, is
`true` both when every item of the batch completed successfully (here
the single item `alice` completed: its record is in the cache
afterwards) and when every item failed; there is no wall-clock deadline
in the code. -/
theorem claim_C9_counterexample :
    (api_users_live 10 succeedEnv 0 ["alice"] true emptyState).1.1 = true ∧
    ((api_users_live 10 succeedEnv 0 ["alice"] true emptyState).2.cache
      (cacheKey "alice")).isSome = true ∧
    (api_users_live 10 failEnv 0 ["alice"] true emptyState).1.1 = true := by
  refine ⟨by decide, by decide, by decide⟩

/-- Claim C9 amended: the live-refresh path of `api_users` has no
wall-clock deadline; it bounds its work by a fixed item cap instead
(`rows[:10]` in `src/app.py`, `MAX_REFRESH = 40` in `src/app_local.py`),
refreshing exactly the first `cap` usernames of the page sequentially
whatever each item's outcome, and the response's `live_refreshed` field
merely echoes whether live mode was requested — it is `true` regardless
of per-item completion and `false` with no refresh work when live mode
is off. -/
theorem claim_C9_live_refresh_no_deadline (cap : Nat) (env : PipelineEnv) (now : Nat)
    (rows : List String) (st : PState) :
    (api_users_live cap env now rows true st).1.1 = true ∧
    (api_users_live cap env now rows true st).1.2 = rows.take cap ∧
    (api_users_live cap env now rows true st).1.2.length ≤ cap ∧
    api_users_live cap env now rows false st = ((false, []), st) := by
  refine ⟨rfl, rfl, ?_, rfl⟩
  simp [api_users_live, List.length_take]

end LeetStats
